import Mathlib

/-!
QNetSoul: handshake, heartbeat and chat registry of the main window.

A shallow embedding of `qns/src/QNetsoul.cpp`.  The class `QNetsoul` becomes a record of
the members its slots read and write; every slot becomes a function on that record.

Modelling conventions

* `QString` and `QByteArray` are both modelled by `String`, a sequence of characters; the
  implicit 8-bit conversions between the two are the identity on that sequence.
* `QHash<int, Chat*>` is an association list; `QHash::insert` replaces the value stored
  under an existing key, `QHash::remove` drops every item stored under the key.
* Calls on collaborators (network, contact tree, message boxes, status bar, tray icon) are
  recorded, in program order, in the `trace` of the record.
* `QStringList::at` with an index out of range and `qFatal` end the slot with a `Fault`.
* The hash function, `url_encode`, the location resolver, the default comment and the
  clock are not part of the translated sources; they are the fields of `Env`.
* `tr` returns its source text.
-/

namespace QNetSoul

/-! ## Qt text primitives -/

/-- Lowercase hexadecimal digit of a value below sixteen. -/
def hexDigit (n : Nat) : Char :=
  if n < 10 then Char.ofNat (48 + n) else Char.ofNat (87 + n)

/-- Two lowercase hexadecimal digits of one byte, high nibble first. -/
def hexByte (c : Char) : List Char :=
  [hexDigit (c.toNat / 16 % 16), hexDigit (c.toNat % 16)]

/-- Rendering of `QByteArray::toHex`: every byte becomes two lowercase hexadecimal digits. -/
def toHex (bytes : String) : String :=
  String.mk (bytes.data.flatMap hexByte)

/-- Test of `QString::isEmpty`. -/
def isEmpty (s : String) : Bool :=
  s.data.isEmpty

/-- Whether `pat` starts the character list `cs`. -/
def startsWith (pat : List Char) (cs : List Char) : Bool :=
  match pat, cs with
  | [], _ => true
  | _ :: _, [] => false
  | p :: ps, c :: rest => p == c && startsWith ps rest

/-- Whether `pat` occurs somewhere in the character list `cs`. -/
def occursIn (pat : List Char) : List Char → Bool
  | [] => startsWith pat []
  | c :: rest => startsWith pat (c :: rest) || occursIn pat rest

/-- Test of `QString::contains` for a literal pattern. -/
def contains (s : String) (pat : String) : Bool :=
  occursIn pat.data s.data

/-! ### `QString::arg`

`QString::arg(const QString&)` replaces every occurrence of the lowest-numbered place
marker of the receiver.  A place marker is `%`, an optional `L`, and one or two decimal
digits.  The replacement text is not scanned again by the same call, but it is part of
the receiver of the next chained call. -/

/-- Piece of a scanned string: one plain character, or one place marker with its number
and its original text. -/
inductive Piece where
  | lit (c : Char)
  | marker (n : Nat) (text : List Char)
  deriving DecidableEq, Repr

/-- What the scanner has read of a possible place marker. -/
inductive Pending where
  | idle
  | percent
  | percentL
  | digit (loc : Bool) (d : Char)
  deriving DecidableEq, Repr

/-- Text of a place marker with one digit. -/
def markerText (loc : Bool) (d : Char) : List Char :=
  if loc then ['%', 'L', d] else ['%', d]

/-- Scanner step outside a place marker. -/
def idleStep (c : Char) : List Piece × Pending :=
  if c = '%' then ([], Pending.percent) else ([Piece.lit c], Pending.idle)

/-- One scanner step: the pieces completed by reading `c` and the new scanner state. -/
def scanStep : Pending → Char → List Piece × Pending
  | Pending.idle, c => idleStep c
  | Pending.percent, c =>
    if c = 'L' then ([], Pending.percentL)
    else if c.isDigit then ([], Pending.digit false c)
    else ([Piece.lit '%'] ++ (idleStep c).1, (idleStep c).2)
  | Pending.percentL, c =>
    if c.isDigit then ([], Pending.digit true c)
    else ([Piece.lit '%', Piece.lit 'L'] ++ (idleStep c).1, (idleStep c).2)
  | Pending.digit loc d, c =>
    if c.isDigit then
      ([Piece.marker (10 * (d.toNat - 48) + (c.toNat - 48)) (markerText loc d ++ [c])],
        Pending.idle)
    else
      ([Piece.marker (d.toNat - 48) (markerText loc d)] ++ (idleStep c).1, (idleStep c).2)

/-- Pieces completed when the end of the string is reached. -/
def scanEnd : Pending → List Piece
  | Pending.idle => []
  | Pending.percent => [Piece.lit '%']
  | Pending.percentL => [Piece.lit '%', Piece.lit 'L']
  | Pending.digit loc d => [Piece.marker (d.toNat - 48) (markerText loc d)]

/-- Scan of a character list into plain characters and place markers. -/
def scanFrom (st : Pending) : List Char → List Piece
  | [] => scanEnd st
  | c :: rest => (scanStep st c).1 ++ scanFrom (scanStep st c).2 rest

/-- Lowest place-marker number among the pieces, if there is a marker. -/
def minEscape : List Piece → Option Nat
  | [] => none
  | Piece.lit _ :: rest => minEscape rest
  | Piece.marker n _ :: rest =>
    match minEscape rest with
    | none => some n
    | some m => some (min n m)

/-- Text of one piece once the markers numbered `k` are replaced by `a`. -/
def substPiece (k : Nat) (a : List Char) : Piece → List Char
  | Piece.lit c => [c]
  | Piece.marker n text => if n = k then a else text

/-- Model of `QString::arg(const QString&)`: every occurrence of the lowest-numbered place
marker is replaced by `a`; a string without place marker is returned unchanged. -/
def arg (s : String) (a : String) : String :=
  match minEscape (scanFrom Pending.idle s.data) with
  | none => s
  | some k => String.mk ((scanFrom Pending.idle s.data).flatMap (substPiece k a.data))

/-! ### Number parsing -/

/-- Value of a run of decimal digits; nothing for an empty run or another character. -/
def digitsValue (cs : List Char) : Option Nat :=
  if cs ≠ [] ∧ cs.all Char.isDigit = true then
    some (cs.foldl (fun acc c => 10 * acc + (c.toNat - 48)) 0)
  else none

/-- Character list without its leading and trailing white space. -/
def trimmed (cs : List Char) : List Char :=
  ((cs.dropWhile Char.isWhitespace).reverse.dropWhile Char.isWhitespace).reverse

/-- Base-ten reading of `QString::toLongLong`: surrounding white space is skipped, a sign
may precede the digits, and the value has to fit sixty-four bits. -/
def toLongLong (s : String) : Option Int :=
  let v : Option Int :=
    match trimmed s.data with
    | '-' :: ds => (digitsValue ds).map (fun n => - (n : Int))
    | '+' :: ds => (digitsValue ds).map (fun n => (n : Int))
    | ds => (digitsValue ds).map (fun n => (n : Int))
  v.filter (fun x => decide (-(2 : Int) ^ 63 ≤ x ∧ x < 2 ^ 63))

/-- Result of `QString::toInt(&ok)`: the value when `ok`, nothing otherwise. -/
def toInt (s : String) : Option Int :=
  (toLongLong s).filter (fun x => decide (-(2 : Int) ^ 31 ≤ x ∧ x < 2 ^ 31))

/-- Result of `QString::toUShort(&ok)`: the value when `ok`, nothing otherwise. -/
def toUShort (s : String) : Option Nat :=
  ((toLongLong s).filter (fun x => decide (0 ≤ x ∧ x ≤ 65535))).map Int.toNat

/-! ## Data model -/

/-- Row of the table `states`. -/
structure State where
  state : String
  pixmap : String
  displayState : String
  deriving DecidableEq, Repr

/-- The table `states`, without its terminating null row. -/
def states : List State :=
  [ { state := "login", pixmap := ":/images/log-in", displayState := "Login" },
    { state := "logout", pixmap := ":/images/offline", displayState := "Offline" },
    { state := "actif", pixmap := ":/images/online", displayState := "Online" },
    { state := "away", pixmap := ":/images/away", displayState := "Away" },
    { state := "idle", pixmap := ":/images/away", displayState := "Idle" },
    { state := "lock", pixmap := ":/images/lock", displayState := "Locked" },
    { state := "server", pixmap := ":/images/server", displayState := "Server" } ]

/-- Values of `QAbstractSocket::SocketState`. -/
inductive SocketState where
  | UnconnectedState
  | HostLookupState
  | ConnectingState
  | ConnectedState
  | BoundState
  | ListeningState
  | ClosingState
  deriving DecidableEq, Repr

/-- How a slot can end without returning. -/
inductive Fault where
  | indexOutOfRange
  | fatal
  deriving DecidableEq, Repr

/-- Modelled from the spec: the class `Chat` (Chat.h is not among the sources) as far as
the main window uses it: the id, login and location given to the constructor, the pixmap
of `statusLabel`, and the enabled and visible flags of the window. -/
structure Chat where
  id : Int
  login : String
  location : String
  pixmap : String
  enabled : Bool
  visible : Bool
  deriving DecidableEq, Repr

/-- Call on a collaborator of the main window. -/
inductive Effect where
  | sendMessage (msg : String)
  | connect (host : String) (port : Nat)
  | networkDisconnect
  | resolveLocation (location : String)
  | refreshContact (login : String)
  | warning (text : String)
  | optionsDialog (focus : String)
  | statusbar (text : String) (timeout : Nat)
  | trayMessage (title : String) (text : String)
  | treeRefreshContacts
  | treeRemoveAllConnectionPoints
  | treeUpdateConnectionPoint (properties : List String)
  | deleteChat (id : Int)
  | deleteOnClose (id : Int)
  deriving DecidableEq, Repr

/-- Functions and values the translated sources use but do not define. -/
structure Env where
  /-- Hash of `QCryptographicHash::hash(_, QCryptographicHash::Md5)`. -/
  md5 : String → String
  /-- Function `url_encode` of Url.h, applied to `toStdString().c_str()` of its argument. -/
  url_encode : String → String
  /-- Value of the location variable after `Network::resolveLocation(location)`. -/
  resolveLocation : String → String
  /-- Value of `QNetsoul::defaultComment()`. -/
  defaultComment : String
  /-- Value of `QDateTime::currentDateTime().toTime_t()`. -/
  currentTime : Nat

/-- Members of the class `QNetsoul` read or written by the translated slots. -/
structure QNetsoul where
  /-- Text of `_options->loginLineEdit`. -/
  login : String
  /-- Text of `_options->passwordLineEdit`. -/
  password : String
  /-- Text of `_options->serverLineEdit`. -/
  server : String
  /-- Text of `_options->portLineEdit`. -/
  port : String
  /-- Text of `_options->locationLineEdit`. -/
  location : String
  /-- Text of `_options->commentLineEdit`. -/
  comment : String
  /-- Value of `_options->chatWidget->notifyState()`. -/
  notifyState : Bool
  /-- Whether `_trayIcon` is not null. -/
  trayIcon : Bool
  /-- Value of `_network->state()`. -/
  socket : SocketState
  /-- The static byte array `sum` of `processHandShaking`. -/
  sum : String
  /-- Member `_timeStamp`. -/
  timeStamp : String
  /-- Timer `_ping`: nothing when stopped, its interval in milliseconds when running. -/
  ping : Option Nat
  /-- Member `_windowsChat`. -/
  windowsChat : List (Int × Chat)
  /-- Value of `tree->getLoginList()`. -/
  loginList : List String
  /-- Calls made on collaborators, oldest first. -/
  trace : List Effect
  deriving DecidableEq, Repr

/-- Record one call on a collaborator. -/
def emit (e : Effect) (s : QNetsoul) : QNetsoul :=
  { s with trace := s.trace ++ [e] }

/-- Messages handed to `Network::sendMessage`, oldest first. -/
def sent (s : QNetsoul) : List String :=
  s.trace.filterMap (fun e => match e with
    | Effect.sendMessage m => some m
    | _ => none)

/-- Connection requests handed to `Network::connect`, oldest first. -/
def connects (s : QNetsoul) : List (String × Nat) :=
  s.trace.filterMap (fun e => match e with
    | Effect.connect h p => some (h, p)
    | _ => none)

/-- Texts shown by `QMessageBox::warning`, oldest first. -/
def warnings (s : QNetsoul) : List String :=
  s.trace.filterMap (fun e => match e with
    | Effect.warning t => some t
    | _ => none)

/-- Element `i` of a `QStringList` as `QStringList::at` returns it. -/
def itemAt (l : List String) (i : Nat) : Except Fault String :=
  match l.get? i with
  | some x => Except.ok x
  | none => Except.error Fault.indexOutOfRange

/-! ## Collaborators -/

/-- Modelled from the spec: `Network::sendMessage` (Network.cpp is not among the sources).
Outbound command issuance is fire-and-forget: the message is handed to the transport. -/
def Network.sendMessage (msg : String) (s : QNetsoul) : QNetsoul :=
  emit (Effect.sendMessage msg) s

/-- Modelled from the spec: `Network::connect` (Network.cpp is not among the sources).
The core requests a connection; the connected notification arrives later. -/
def Network.connect (host : String) (port : Nat) (s : QNetsoul) : QNetsoul :=
  emit (Effect.connect host port) s

/-- Modelled from the spec: `Network::disconnect` (Network.cpp is not among the sources).
A disconnect request is immediately effective: the transport is unconnected afterwards. -/
def Network.disconnect (s : QNetsoul) : QNetsoul :=
  { emit Effect.networkDisconnect s with socket := SocketState.UnconnectedState }

/-- Modelled from the spec: `Network::refreshContact` (Network.cpp is not among the
sources), recorded as a call. -/
def Network.refreshContact (login : String) (s : QNetsoul) : QNetsoul :=
  emit (Effect.refreshContact login) s

/-! ## Chat registry -/

/-- Lookup of `QNetsoul::getChat`: the chat stored under `id`, nothing for a null result. -/
def getChat (id : Int) (s : QNetsoul) : Option Chat :=
  s.windowsChat.lookup id

/-- Registry after `QHash::insert(id, chat)`. -/
def hashInsert (id : Int) (chat : Chat) (reg : List (Int × Chat)) : List (Int × Chat) :=
  (id, chat) :: reg.filter (fun e => e.1 != id)

/-- Registry after `QHash::remove(id)`. -/
def hashRemove (id : Int) (reg : List (Int × Chat)) : List (Int × Chat) :=
  reg.filter (fun e => e.1 != id)

/-- Registry after `statusLabel->setPixmap(QPixmap(pixmap))` on the chat stored under
`id`. -/
def setPixmap (id : Int) (pixmap : String) (reg : List (Int × Chat)) : List (Int × Chat) :=
  reg.map (fun e => (e.1, if e.1 = id then { e.2 with pixmap := pixmap } else e.2))

/-- Modelled from the spec: the constructor `Chat(id, login, location)` (Chat.cpp is not
among the sources): an enabled, hidden window without status pixmap. -/
def Chat.new (id : Int) (login : String) (location : String) : Chat :=
  { id := id, login := login, location := location, pixmap := "", enabled := true,
    visible := false }

/-- Translation of `QNetsoul::createWindowChat`: a new chat is stored under `id` and
returned. -/
def createWindowChat (id : Int) (login : String) (location : String) (s : QNetsoul) :
    Chat × QNetsoul :=
  let chat := Chat.new id login location
  (chat, { s with windowsChat := hashInsert id chat s.windowsChat })

/-- Translation of `QNetsoul::disableChat`: the key `chat->id()` leaves the registry; a
visible chat is deleted when it closes, a hidden one at once. -/
def disableChat (chat : Chat) (s : QNetsoul) : QNetsoul :=
  let s1 := { s with windowsChat := hashRemove chat.id s.windowsChat }
  if chat.visible then emit (Effect.deleteOnClose chat.id) s1
  else emit (Effect.deleteChat chat.id) s1

/-- Translation of `QNetsoul::disableChats`: the iterator walks a snapshot of the
registry and disables every chat of the login. -/
def disableChats (login : String) (s : QNetsoul) : QNetsoul :=
  s.windowsChat.foldl (fun acc e => if login = e.2.login then disableChat e.2 acc else acc) s

/-- Translation of `QNetsoul::resetAllContacts`. -/
def resetAllContacts (s : QNetsoul) : QNetsoul :=
  let s1 := emit Effect.treeRemoveAllConnectionPoints s
  { s1 with windowsChat :=
      s1.windowsChat.map (fun e => (e.1, { e.2 with pixmap := ":/images/offline" })) }

/-! ## Connection -/

/-- Recorded call of `QNetsoul::openOptionsDialog` with the line edit that gets the focus. -/
def openOptionsDialog (focus : String) (s : QNetsoul) : QNetsoul :=
  emit (Effect.optionsDialog focus) s

/-- Translation of `QNetsoul::connectToServer`. -/
def connectToServer (s : QNetsoul) : QNetsoul :=
  if s.socket = SocketState.ConnectedState then s
  else if !isEmpty s.login then
    if !isEmpty s.password then
      match toUShort s.port with
      | some port => Network.connect s.server port (emit (Effect.statusbar "Connecting..." 3000) s)
      | none => openOptionsDialog "portLineEdit" (emit (Effect.warning "Port is invalid.") s)
    else
      openOptionsDialog "passwordLineEdit" (emit (Effect.warning "Your password is missing.") s)
  else
    openOptionsDialog "loginLineEdit" (emit (Effect.warning "Your login is missing.") s)

/-- Translation of `QNetsoul::ping`. -/
def ping (s : QNetsoul) : QNetsoul :=
  Network.sendMessage "ping\n" s

/-- Translation of `QNetsoul::disconnect`. -/
def disconnect (s : QNetsoul) : QNetsoul :=
  Network.disconnect (resetAllContacts { s with ping := none })

/-- Translation of `QNetsoul::reconnect`. -/
def reconnect (s : QNetsoul) : QNetsoul :=
  connectToServer (disconnect s)

/-! ## Watch list -/

/-- Body of the loop of `watchLogContacts` for index `i`. -/
def watchLogStep (list : List String) (size : Nat) (netMsg : String) (i : Nat) : String :=
  let netMsg1 := netMsg ++ list.getD i ""
  if i + 1 < size then netMsg1 ++ "," else netMsg1

/-- Translation of `QNetsoul::watchLogContacts`. -/
def watchLogContacts (s : QNetsoul) : QNetsoul :=
  let list := s.loginList
  let size := list.length
  if size > 0 then
    let netMsg := (List.range size).foldl (watchLogStep list size) "user_cmd watch_log_user \x7b"
    Network.sendMessage (netMsg ++ "\x7d\n") s
  else s

/-! ## Handshake -/

/-- Translation of `QNetsoul::processHandShaking`. -/
def processHandShaking (env : Env) (step : Int) (args : List String) (s : QNetsoul) :
    Except Fault QNetsoul :=
  if step = 0 then
    let password := s.password
    if !isEmpty password && args.length > 3 then do
      let sum0 := ""
      let a5 ← itemAt args 5
      let a2 ← itemAt args 2
      let a3 ← itemAt args 3
      let a4 ← itemAt args 4
      let sum1 := sum0 ++ arg (arg (arg (arg "%1-%2/%3%4" a2) a3) a4) password
      let sum2 := env.md5 sum1
      pure (Network.sendMessage "auth_ag ext_user none none\n"
        { s with timeStamp := a5, sum := sum2 })
    else pure s
  else if step = 1 then
    let hex := toHex s.sum
    let resolve := isEmpty s.location || contains s.location "%L"
    let location := if resolve then env.resolveLocation s.location else s.location
    let s1 := if resolve then emit (Effect.resolveLocation s.location) s else s
    let comment := if isEmpty s.comment then env.defaultComment else s.comment
    let message := ""
    let message := message ++ "ext_user_log "
    let message := message ++ (s.login ++ " ")
    let message := message ++ hex
    let message := message ++ " "
    let message := message ++ env.url_encode location
    let message := message ++ " "
    let message := message ++ env.url_encode comment
    let message := message ++ "\n"
    pure (Network.sendMessage message s1)
  else if step = 2 then
    let state := ""
    let state := state ++ "state actif:"
    let state := state ++ toString (env.currentTime % 2 ^ 32)
    let state := state ++ "\n"
    let s1 := Network.sendMessage state s
    let s2 := watchLogContacts s1
    let s3 := emit Effect.treeRefreshContacts s2
    let s4 := { s3 with ping := some 10000 }
    pure (emit (Effect.statusbar "You are now Netsouled." 2000) s4)
  else if step = -1 then
    pure (emit (Effect.statusbar "Authentification failed." 0) (disconnect s))
  else pure s

/-! ## Presence records -/

/-- Effect of the first row of `states` whose state equals field 4, as the loop of
`changeStatus` applies it to the chat stored under `id`. -/
def applyStatus (properties : List String) (id : Int) (chat : Chat) (st : State)
    (s : QNetsoul) : Except Fault QNetsoul := do
  let p4 ← itemAt properties 4
  let s1 := { s with windowsChat := setPixmap id st.pixmap s.windowsChat }
  let s2 ←
    if "login" = p4 then do
      let p0 ← itemAt properties 0
      pure (Network.refreshContact p0 s1)
    else if "logout" = p4 then
      pure (disableChat { chat with pixmap := st.pixmap } s1)
    else pure s1
  if s2.trayIcon && s2.notifyState then do
    let p0 ← itemAt properties 0
    pure (emit (Effect.trayMessage p0 ("is now " ++ st.displayState)) s2)
  else pure s2

/-- Translation of `QNetsoul::changeStatus`. -/
def changeStatus (properties : List String) (s : QNetsoul) : Except Fault QNetsoul := do
  let p1 ← itemAt properties 1
  match toInt p1 with
  | none => throw Fault.fatal
  | some id =>
    let (chat, s1) ←
      (match getChat id s with
        | some chat => pure (chat, s)
        | none => do
          let p0 ← itemAt properties 0
          let p5 ← itemAt properties 5
          pure (createWindowChat id p0 p5 s) : Except Fault (Chat × QNetsoul))
    let p4 ← itemAt properties 4
    let s2 ←
      (match states.find? (fun st => p4 = st.state) with
        | some st => applyStatus properties id chat st s1
        | none => pure s1 : Except Fault QNetsoul)
    pure (emit (Effect.treeUpdateConnectionPoint properties) s2)

/-- Translation of `QNetsoul::updateContact`. -/
def updateContact (properties : List String) (s : QNetsoul) : Except Fault QNetsoul := do
  let p1 ← itemAt properties 1
  match toInt p1 with
  | none => throw Fault.fatal
  | some id =>
    let s1 ←
      (match getChat id s with
        | some _ => pure s
        | none => do
          let p0 ← itemAt properties 0
          let p5 ← itemAt properties 5
          pure (createWindowChat id p0 p5 s).2 : Except Fault QNetsoul)
    let p4 ← itemAt properties 4
    let reg := states.foldl
      (fun reg st => if p4 = st.state then setPixmap id st.pixmap reg else reg) s1.windowsChat
    pure (emit (Effect.treeUpdateConnectionPoint properties) { s1 with windowsChat := reg })

/-! ## Registry views and sample inputs -/

deriving instance DecidableEq for Except

/-- Row of `states` for a state name, if the name is in the table. -/
def stateRow (state : String) : Option State :=
  states.find? (fun st => decide (state = st.state))

/-- Registry after the pixmap of the row, if any, is set on the chat stored under `id`. -/
def setRowPixmap (id : Int) (row : Option State) (reg : List (Int × Chat)) :
    List (Int × Chat) :=
  match row with
  | some st => setPixmap id st.pixmap reg
  | none => reg

/-- Representation invariant of the hash: one item per key. -/
def registryOk (s : QNetsoul) : Prop :=
  (s.windowsChat.map Prod.fst).Nodup

instance (s : QNetsoul) : Decidable (registryOk s) := by
  unfold registryOk; infer_instance

/-- Sample environment: the hash, the encoder and the resolver return their argument. -/
def sampleEnv : Env :=
  { md5 := fun x => x, url_encode := fun x => x, resolveLocation := fun x => x,
    defaultComment := "dc", currentTime := 1300000000 }

/-- Sample main window: connected, credentials filled in, empty registry and watch list. -/
def sampleState : QNetsoul :=
  { login := "bob", password := "pw", server := "ns-server.epita.fr", port := "4242",
    location := "home", comment := "", notifyState := false, trayIcon := false,
    socket := SocketState.ConnectedState, sum := "", timeStamp := "", ping := none,
    windowsChat := [], loginList := [], trace := [] }

/-- Sample main window with three watched logins. -/
def watchingState : QNetsoul :=
  { sampleState with loginList := ["alice", "carol", "dave"] }

/-- Sample main window without password. -/
def noPasswordState : QNetsoul :=
  { sampleState with password := "" }

/-- Sample main window that is not connected and whose port text is not a number. -/
def badPortState : QNetsoul :=
  { sampleState with socket := SocketState.UnconnectedState, port := "http" }

/-- Challenge record whose fields hold no place marker. -/
def plainChallenge : List String := ["salut", "42", "a", "b", "c", "1300000000"]

/-- Challenge record whose field 2 is the text of a place marker. -/
def markerChallenge : List String := ["salut", "42", "%1", "b", "c", "1300000000"]

/-- Presence record announcing a logout of session 7. -/
def logoutRecord : List String :=
  ["alice", "7", "10.0.0.1", "epita_2012", "logout", "lab", "-"]

/-- Challenge record of four fields: it passes the guard `args.size() > 3` of step 0. -/
def shortChallenge : List String := ["salut", "42", "a", "b"]

/-- Sample environment whose location resolver leaves `lab-sm14` in the location
variable. -/
def resolvingEnv : Env :=
  { sampleEnv with resolveLocation := fun _ => "lab-sm14" }

/-- Sample main window with a cached two-byte digest, the location placeholder as
location and a comment. -/
def placeholderState : QNetsoul :=
  { sampleState with sum := "\x01\xab", location := "%L", comment := "at work" }

/-- Representation invariant of the registry: every chat is stored under its own id, as
`createWindowChat` stores it. -/
def keyedById (s : QNetsoul) : Prop :=
  ∀ e ∈ s.windowsChat, e.1 = e.2.id

instance (s : QNetsoul) : Decidable (keyedById s) := by
  unfold keyedById; infer_instance

/-- Sample main window with three chats, two of them of login `alice`. -/
def chattingState : QNetsoul :=
  { sampleState with windowsChat :=
      [(7, Chat.new 7 "alice" "lab"), (8, Chat.new 8 "carol" "home"),
        (9, Chat.new 9 "alice" "home")] }

/-! ## Lemmas on text -/

theorem isEmpty_eq_true_iff (t : String) : isEmpty t = true ↔ t = "" := by
  cases t with
  | mk d => cases d <;> simp [isEmpty, String.ext_iff]

theorem isEmpty_eq_false_iff (t : String) : isEmpty t = false ↔ t ≠ "" := by
  have h := isEmpty_eq_true_iff t
  cases hb : isEmpty t <;> simp_all

/-- A stretch of text without `%` is scanned into plain characters. -/
theorem scanFrom_plain (pre rest : List Char) (h : '%' ∉ pre) :
    scanFrom Pending.idle (pre ++ rest) = pre.map Piece.lit ++ scanFrom Pending.idle rest := by
  induction pre with
  | nil => rfl
  | cons c cs ih =>
    have hc : c ≠ '%' := fun hc => h (by simp [hc])
    have hcs : '%' ∉ cs := fun hm => h (List.mem_cons_of_mem _ hm)
    simp [scanFrom, scanStep, idleStep, hc, ih hcs]

theorem minEscape_plain (pre : List Char) (ps : List Piece) :
    minEscape (pre.map Piece.lit ++ ps) = minEscape ps := by
  induction pre with
  | nil => rfl
  | cons c cs ih => simpa [minEscape] using ih

theorem subst_plain (k : Nat) (a pre : List Char) :
    (pre.map Piece.lit).flatMap (substPiece k a) = pre := by
  induction pre with
  | nil => rfl
  | cons c cs ih => simp [substPiece, ih]

/-- Effect of `arg` on a receiver that starts with text free of `%`. -/
theorem arg_plain (pre tail : List Char) (a : String) (k : Nat) (h : '%' ∉ pre)
    (hk : minEscape (scanFrom Pending.idle tail) = some k) :
    arg (String.mk (pre ++ tail)) a
      = String.mk (pre ++ (scanFrom Pending.idle tail).flatMap (substPiece k a.data)) := by
  simp only [arg, scanFrom_plain pre tail h, minEscape_plain, hk, List.flatMap_append,
    subst_plain]

/-- When fields 2, 3 and 4 hold no `%`, the chained `arg` calls of step 0 build
`a2-a3/a4` followed by the password. -/
theorem challenge_plain (a2 a3 a4 pw : String)
    (h2 : '%' ∉ a2.data) (h3 : '%' ∉ a3.data) (h4 : '%' ∉ a4.data) :
    arg (arg (arg (arg "%1-%2/%3%4" a2) a3) a4) pw = a2 ++ "-" ++ a3 ++ "/" ++ a4 ++ pw := by
  have e1 : arg "%1-%2/%3%4" a2 = String.mk (a2.data ++ "-%2/%3%4".data) := by
    have := arg_plain [] "%1-%2/%3%4".data a2 1 (by simp) (by decide)
    simpa [scanFrom, scanStep, scanEnd, idleStep, substPiece, markerText] using this
  have e2 : arg (String.mk (a2.data ++ "-%2/%3%4".data)) a3
      = String.mk ((a2.data ++ '-' :: a3.data) ++ "/%3%4".data) := by
    have := arg_plain a2.data "-%2/%3%4".data a3 2 h2 (by decide)
    simpa [scanFrom, scanStep, scanEnd, idleStep, substPiece, markerText] using this
  have e3 : arg (String.mk ((a2.data ++ '-' :: a3.data) ++ "/%3%4".data)) a4
      = String.mk ((a2.data ++ '-' :: a3.data ++ '/' :: a4.data) ++ "%4".data) := by
    have := arg_plain (a2.data ++ '-' :: a3.data) "/%3%4".data a4 3
      (by simp [h2, h3]) (by decide)
    simpa [scanFrom, scanStep, scanEnd, idleStep, substPiece, markerText] using this
  have e4 : arg (String.mk ((a2.data ++ '-' :: a3.data ++ '/' :: a4.data) ++ "%4".data)) pw
      = String.mk ((a2.data ++ '-' :: a3.data ++ '/' :: a4.data) ++ pw.data) := by
    have := arg_plain (a2.data ++ '-' :: a3.data ++ '/' :: a4.data) "%4".data pw 4
      (by simp [h2, h3, h4]) (by decide)
    simpa [scanFrom, scanStep, scanEnd, idleStep, substPiece, markerText] using this
  rw [e1, e2, e3, e4]
  apply String.ext
  simp

/-! ## Lemmas on the trace -/

theorem sent_emit (e : Effect) (s : QNetsoul) :
    sent (emit e s) = sent s ++ (match e with
      | Effect.sendMessage m => [m]
      | _ => []) := by
  cases e <;> simp [sent, emit, List.filterMap_append]

theorem connects_emit (e : Effect) (s : QNetsoul) :
    connects (emit e s) = connects s ++ (match e with
      | Effect.connect h p => [(h, p)]
      | _ => []) := by
  cases e <;> simp [connects, emit, List.filterMap_append]

theorem warnings_emit (e : Effect) (s : QNetsoul) :
    warnings (emit e s) = warnings s ++ (match e with
      | Effect.warning t => [t]
      | _ => []) := by
  cases e <;> simp [warnings, emit, List.filterMap_append]

theorem emit_frame (e : Effect) (s : QNetsoul) :
    (emit e s).login = s.login ∧ (emit e s).password = s.password ∧
    (emit e s).location = s.location ∧ (emit e s).comment = s.comment ∧
    (emit e s).sum = s.sum ∧ (emit e s).ping = s.ping ∧ (emit e s).socket = s.socket ∧
    (emit e s).windowsChat = s.windowsChat ∧ (emit e s).loginList = s.loginList ∧
    (emit e s).server = s.server ∧ (emit e s).port = s.port := by
  simp [emit]

theorem sendMessage_frame (m : String) (s : QNetsoul) :
    (Network.sendMessage m s).login = s.login ∧ (Network.sendMessage m s).password = s.password ∧
    (Network.sendMessage m s).location = s.location ∧
    (Network.sendMessage m s).comment = s.comment ∧
    (Network.sendMessage m s).sum = s.sum ∧ (Network.sendMessage m s).ping = s.ping ∧
    (Network.sendMessage m s).socket = s.socket ∧
    (Network.sendMessage m s).windowsChat = s.windowsChat ∧
    (Network.sendMessage m s).loginList = s.loginList := by
  simp [Network.sendMessage, emit]

theorem sent_sendMessage (m : String) (s : QNetsoul) :
    sent (Network.sendMessage m s) = sent s ++ [m] := by
  simp [Network.sendMessage, sent_emit]

/-! ## Lemmas on the watch-list loop -/

theorem intercalate_go_append (p sep : String) (l : List String) (a : String) :
    String.intercalate.go (p ++ a) sep l = p ++ String.intercalate.go a sep l := by
  induction l generalizing a with
  | nil => simp [String.intercalate.go]
  | cons y l ih =>
    simp only [String.intercalate.go]
    rw [String.append_assoc, String.append_assoc, ih, String.append_assoc]

/-- Loop invariant of `watchLogContacts`: after the logins `pre`, the remaining iterations
append the logins `suf` with a comma between neighbours. -/
theorem watchLoop_suffix (suf : List String) :
    ∀ (pre : List String) (acc : String),
      (List.range' pre.length suf.length).foldl
          (watchLogStep (pre ++ suf) (pre ++ suf).length) acc
        = match suf with
          | [] => acc
          | x :: r => String.intercalate.go (acc ++ x) "," r := by
  induction suf with
  | nil => intro pre acc; simp [List.range']
  | cons x r ih =>
    intro pre acc
    have hget : (pre ++ x :: r).getD pre.length "" = x := by
      induction pre with
      | nil => rfl
      | cons p ps ihp => simpa [List.getD] using ihp
    have hlist : pre ++ x :: r = (pre ++ [x]) ++ r := by simp
    simp only [List.length_cons, List.range', List.foldl_cons]
    have hstep : watchLogStep (pre ++ x :: r) (pre ++ x :: r).length acc pre.length
        = if r = [] then acc ++ x else acc ++ x ++ "," := by
      simp only [watchLogStep, hget]
      cases r with
      | nil => simp
      | cons y r2 => simp
    rw [hstep]
    have ih2 := ih (pre ++ [x]) (if r = [] then acc ++ x else acc ++ x ++ ",")
    rw [← hlist] at ih2
    have hlen : (pre ++ [x]).length = pre.length + 1 := by simp
    rw [hlen] at ih2
    rw [ih2]
    cases r with
    | nil => simp [String.intercalate.go]
    | cons y r2 => simp [String.intercalate.go]

theorem watchLoop_eq (list : List String) (acc : String) (h : list ≠ []) :
    (List.range list.length).foldl (watchLogStep list list.length) acc
      = acc ++ String.intercalate "," list := by
  have h0 := watchLoop_suffix list [] acc
  simp only [List.nil_append, List.length_nil] at h0
  rw [List.range_eq_range', h0]
  cases list with
  | nil => exact absurd rfl h
  | cons x r => simp only [String.intercalate]; exact intercalate_go_append acc "," r x

theorem watchLogContacts_eq (s : QNetsoul) :
    watchLogContacts s =
      if s.loginList = [] then s
      else Network.sendMessage
        ("user_cmd watch_log_user \x7b" ++ String.intercalate "," s.loginList ++ "\x7d\n") s := by
  by_cases h : s.loginList = []
  · simp [watchLogContacts, h]
  · have hpos : s.loginList.length > 0 := List.length_pos.mpr h
    simp only [watchLogContacts, hpos, if_true, h, if_false]
    rw [watchLoop_eq _ _ h]

theorem sent_watchLogContacts (s : QNetsoul) :
    sent (watchLogContacts s) = sent s ++
      (if s.loginList = [] then []
       else ["user_cmd watch_log_user \x7b" ++ String.intercalate "," s.loginList ++ "\x7d\n"]) := by
  rw [watchLogContacts_eq]
  by_cases h : s.loginList = []
  · simp [h]
  · simp [h, sent_sendMessage]

/-! ## Lemmas on the handshake steps -/

theorem step0_eq (env : Env) (s : QNetsoul) (a0 a1 a2 a3 a4 a5 : String) (rest : List String)
    (hpw : s.password ≠ "") :
    processHandShaking env 0 (a0 :: a1 :: a2 :: a3 :: a4 :: a5 :: rest) s
      = Except.ok (Network.sendMessage "auth_ag ext_user none none\n"
          { s with timeStamp := a5,
                   sum := env.md5 (arg (arg (arg (arg "%1-%2/%3%4" a2) a3) a4) s.password) }) := by
  have hpw2 : isEmpty s.password = false := (isEmpty_eq_false_iff _).mpr hpw
  simp only [processHandShaking, itemAt, hpw2]
  simp [bind, Except.bind, pure, Except.pure]

theorem step1_eq (env : Env) (args : List String) (s : QNetsoul) :
    processHandShaking env 1 args s
      = Except.ok (Network.sendMessage
          ("ext_user_log " ++ s.login ++ " " ++ toHex s.sum ++ " "
            ++ env.url_encode (if isEmpty s.location || contains s.location "%L"
                then env.resolveLocation s.location else s.location) ++ " "
            ++ env.url_encode (if isEmpty s.comment then env.defaultComment else s.comment)
            ++ "\n")
          (if isEmpty s.location || contains s.location "%L"
            then emit (Effect.resolveLocation s.location) s else s)) := by
  simp [processHandShaking, pure, Except.pure, String.append_assoc]

theorem step2_eq (env : Env) (args : List String) (s : QNetsoul) :
    processHandShaking env 2 args s
      = Except.ok (emit (Effect.statusbar "You are now Netsouled." 2000)
          { emit Effect.treeRefreshContacts
              (watchLogContacts
                (Network.sendMessage
                  ("state actif:" ++ toString (env.currentTime % 2 ^ 32) ++ "\n") s))
            with ping := some 10000 }) := by
  simp [processHandShaking, pure, Except.pure, String.append_assoc]

theorem stepFailed_eq (env : Env) (args : List String) (s : QNetsoul) :
    processHandShaking env (-1) args s
      = Except.ok (emit (Effect.statusbar "Authentification failed." 0) (disconnect s)) := by
  simp [processHandShaking, pure, Except.pure]

/-- Step 0 on a record of at least six fields, with a password: what is sent and cached. -/
theorem step0_spec (env : Env) (s : QNetsoul) (a0 a1 a2 a3 a4 a5 : String) (rest : List String)
    (hpw : s.password ≠ "") :
    ∃ s1, processHandShaking env 0 (a0 :: a1 :: a2 :: a3 :: a4 :: a5 :: rest) s = Except.ok s1 ∧
      sent s1 = sent s ++ ["auth_ag ext_user none none\n"] ∧
      s1.sum = env.md5 (arg (arg (arg (arg "%1-%2/%3%4" a2) a3) a4) s.password) ∧
      s1.timeStamp = a5 ∧
      s1.login = s.login ∧ s1.location = s.location ∧ s1.comment = s.comment ∧
      s1.loginList = s.loginList ∧ s1.ping = s.ping ∧ s1.windowsChat = s.windowsChat := by
  refine ⟨_, step0_eq env s a0 a1 a2 a3 a4 a5 rest hpw, ?_⟩
  simp [Network.sendMessage, emit, sent]

/-- Step 1: the identity line that is sent. -/
theorem step1_spec (env : Env) (args : List String) (s : QNetsoul) :
    ∃ s1, processHandShaking env 1 args s = Except.ok s1 ∧
      sent s1 = sent s ++
        ["ext_user_log " ++ s.login ++ " " ++ toHex s.sum ++ " "
          ++ env.url_encode (if isEmpty s.location || contains s.location "%L"
              then env.resolveLocation s.location else s.location) ++ " "
          ++ env.url_encode (if isEmpty s.comment then env.defaultComment else s.comment)
          ++ "\n"] ∧
      s1.sum = s.sum ∧ s1.loginList = s.loginList ∧ s1.ping = s.ping ∧
      s1.windowsChat = s.windowsChat := by
  refine ⟨_, step1_eq env args s, ?_⟩
  split <;> simp [Network.sendMessage, emit, sent]

/-- Step 2: the status line, the watch-list line when the list is not empty, the timer. -/
theorem step2_spec (env : Env) (args : List String) (s : QNetsoul) :
    ∃ s1, processHandShaking env 2 args s = Except.ok s1 ∧
      sent s1 = sent s ++
        (["state actif:" ++ toString (env.currentTime % 2 ^ 32) ++ "\n"]
          ++ (if s.loginList = [] then []
              else ["user_cmd watch_log_user \x7b" ++ String.intercalate "," s.loginList
                ++ "\x7d\n"])) ∧
      s1.ping = some 10000 := by
  refine ⟨_, step2_eq env args s, ?_, ?_⟩
  · have hping : ∀ (t : QNetsoul) (p : Option Nat), sent { t with ping := p } = sent t :=
      fun _ _ => rfl
    simp only [sent_emit, hping, sent_watchLogContacts, sent_sendMessage]
    simp [sendMessage_frame]
  · simp [emit]

theorem disconnect_frame (s : QNetsoul) :
    (disconnect s).sum = s.sum ∧ (disconnect s).login = s.login ∧
    (disconnect s).location = s.location ∧ (disconnect s).comment = s.comment ∧
    (disconnect s).ping = none ∧ (disconnect s).socket = SocketState.UnconnectedState ∧
    sent (disconnect s) = sent s ∧
    (disconnect s).windowsChat
      = s.windowsChat.map (fun e => (e.1, { e.2 with pixmap := ":/images/offline" })) := by
  simp [disconnect, Network.disconnect, resetAllContacts, emit, sent, List.filterMap_append]

/-! ## Lemmas on the registry -/

theorem lookup_hashInsert_self (id : Int) (c : Chat) (reg : List (Int × Chat)) :
    (hashInsert id c reg).lookup id = some c := by
  simp [hashInsert, List.lookup]

theorem lookup_hashRemove_self (id : Int) (reg : List (Int × Chat)) :
    (hashRemove id reg).lookup id = none := by
  induction reg with
  | nil => rfl
  | cons e reg ih =>
    by_cases h : e.1 = id
    · simpa [hashRemove, List.filter_cons, h] using ih
    · have h2 : (id == e.1) = false := by simpa using fun h3 => h h3.symm
      simpa [hashRemove, List.filter_cons, h, List.lookup, h2] using ih

theorem lookup_setPixmap_self (id : Int) (p : String) (reg : List (Int × Chat)) :
    (setPixmap id p reg).lookup id
      = (reg.lookup id).map (fun c => { c with pixmap := p }) := by
  induction reg with
  | nil => rfl
  | cons e reg ih =>
    obtain ⟨k, c⟩ := e
    by_cases h : k = id
    · subst h
      simp [setPixmap, List.lookup]
    · have h2 : (id == k) = false := by simpa using fun h3 => h h3.symm
      simp only [setPixmap] at ih
      simp only [setPixmap, List.map_cons, List.lookup, h2]
      exact ih

theorem keys_setPixmap (id : Int) (p : String) (reg : List (Int × Chat)) :
    (setPixmap id p reg).map Prod.fst = reg.map Prod.fst := by
  simp [setPixmap, List.map_map, Function.comp_def]

theorem keys_setRowPixmap (id : Int) (row : Option State) (reg : List (Int × Chat)) :
    (setRowPixmap id row reg).map Prod.fst = reg.map Prod.fst := by
  cases row with
  | none => rfl
  | some st => exact keys_setPixmap id st.pixmap reg

theorem lookup_setRowPixmap (id : Int) (st : State) (reg : List (Int × Chat)) :
    (setRowPixmap id (some st) reg).lookup id
      = (reg.lookup id).map (fun c => { c with pixmap := st.pixmap }) :=
  lookup_setPixmap_self id st.pixmap reg

theorem lookup_isSome_setRowPixmap (id : Int) (row : Option State) (reg : List (Int × Chat)) :
    ((setRowPixmap id row reg).lookup id).isSome = (reg.lookup id).isSome := by
  cases row with
  | none => rfl
  | some st => rw [lookup_setRowPixmap]; cases reg.lookup id <;> rfl

theorem count_keys_hashInsert (id : Int) (c : Chat) (reg : List (Int × Chat)) :
    ((hashInsert id c reg).map Prod.fst).count id = 1 := by
  have h : ((reg.filter (fun e => e.1 != id)).map Prod.fst).count id = 0 := by
    rw [List.count_eq_zero]
    intro hmem
    obtain ⟨e, he, hk⟩ := List.mem_map.mp hmem
    have := (List.mem_filter.mp he).2
    simp [hk] at this
  simp [hashInsert, h]

theorem mem_keys_of_lookup (id : Int) (c : Chat) (reg : List (Int × Chat))
    (h : reg.lookup id = some c) : id ∈ reg.map Prod.fst := by
  induction reg with
  | nil => simp [List.lookup] at h
  | cons e reg ih =>
    obtain ⟨k, v⟩ := e
    by_cases hk : id = k
    · simp [hk]
    · have h2 : (id == k) = false := by simpa using hk
      simp only [List.lookup, h2] at h
      simp [ih h]

/-- The loop of `updateContact` over `states` sets the pixmap of the one row that
matches field 4, if a row matches. -/
theorem pixmapLoop_eq (p4 : String) (id : Int) (reg : List (Int × Chat)) :
    states.foldl (fun reg st => if p4 = st.state then setPixmap id st.pixmap reg else reg) reg
      = setRowPixmap id (stateRow p4) reg := by
  simp only [stateRow, setRowPixmap, states, List.foldl_cons, List.foldl_nil, List.find?_cons]
  by_cases h1 : p4 = "login"
  · subst h1; simp
  by_cases h2 : p4 = "logout"
  · subst h2; simp
  by_cases h3 : p4 = "actif"
  · subst h3; simp
  by_cases h4 : p4 = "away"
  · subst h4; simp
  by_cases h5 : p4 = "idle"
  · subst h5; simp
  by_cases h6 : p4 = "lock"
  · subst h6; simp
  by_cases h7 : p4 = "server"
  · subst h7; simp
  simp [h1, h2, h3, h4, h5, h6, h7]

theorem stateRow_recognised (q : String)
    (hq : q ∈ ["login", "logout", "actif", "away", "idle", "lock", "server"]) :
    ∃ st, stateRow q = some st ∧ st ∈ states ∧ st.state = q := by
  simp only [List.mem_cons, List.mem_singleton, List.not_mem_nil, or_false] at hq
  rcases hq with h | h | h | h | h | h | h <;> subst h <;> exact ⟨_, rfl, by decide, rfl⟩

/-- Registry after the matching row of `states` is applied by `changeStatus`. -/
theorem applyStatus_registry (s : QNetsoul) (p0 p1 p2 p3 p4 p5 : String) (rest : List String)
    (id : Int) (chat : Chat) (st : State) :
    ∃ s1, applyStatus (p0 :: p1 :: p2 :: p3 :: p4 :: p5 :: rest) id chat st s = Except.ok s1 ∧
      s1.windowsChat =
        if p4 = "logout" then hashRemove chat.id (setPixmap id st.pixmap s.windowsChat)
        else setPixmap id st.pixmap s.windowsChat := by
  simp only [applyStatus, itemAt, List.get?, bind, Except.bind, pure, Except.pure]
  by_cases h1 : "login" = p4
  · subst h1
    simp only [if_true]
    split
    · exact ⟨_, rfl, by simp [emit, Network.refreshContact]⟩
    · exact ⟨_, rfl, by simp [emit, Network.refreshContact]⟩
  · by_cases h2 : "logout" = p4
    · subst h2
      simp only [if_true, if_neg h1]
      split
      · exact ⟨_, rfl, by simp [emit, disableChat]; split <;> rfl⟩
      · exact ⟨_, rfl, by simp [emit, disableChat]; split <;> rfl⟩
    · simp only [if_neg h1, if_neg h2]
      have h3 : ¬ p4 = "logout" := fun h => h2 h.symm
      split
      · exact ⟨_, rfl, by simp [emit, h3]⟩
      · exact ⟨_, rfl, by simp [emit, h3]⟩

/-- Registry after `updateContact` on a record of at least six fields whose id parses. -/
theorem updateContact_spec (s : QNetsoul) (p0 p1 p2 p3 p4 p5 : String) (rest : List String)
    (id : Int) (hid : toInt p1 = some id) :
    ∃ s1, updateContact (p0 :: p1 :: p2 :: p3 :: p4 :: p5 :: rest) s = Except.ok s1 ∧
      s1.windowsChat =
        setRowPixmap id (stateRow p4)
          (match getChat id s with
            | some _ => s.windowsChat
            | none => hashInsert id (Chat.new id p0 p5) s.windowsChat) := by
  simp only [updateContact, itemAt, List.get?, bind, Except.bind, hid, pure, Except.pure,
    pixmapLoop_eq]
  cases hg : getChat id s with
  | none => exact ⟨_, rfl, by simp [emit, createWindowChat]⟩
  | some c => exact ⟨_, rfl, by simp [emit]⟩

/-! ## Claims on the handshake -/

/-- For a challenge record whose fields 2, 3 and 4 hold no `%`, step 0 caches the hash of
`a2-a3/a4` followed by the password, and step 1 transmits its hexadecimal rendering. -/
theorem processHandShaking_plain_fields_digest (env : Env) (s : QNetsoul)
    (a0 a1 a2 a3 a4 a5 : String) (rest args1 : List String) (hpw : s.password ≠ "")
    (h2 : '%' ∉ a2.data) (h3 : '%' ∉ a3.data) (h4 : '%' ∉ a4.data) :
    ∃ s1 s2, processHandShaking env 0 (a0 :: a1 :: a2 :: a3 :: a4 :: a5 :: rest) s
        = Except.ok s1 ∧
      s1.sum = env.md5 (a2 ++ "-" ++ a3 ++ "/" ++ a4 ++ s.password) ∧
      processHandShaking env 1 args1 s1 = Except.ok s2 ∧
      sent s2 = sent s ++
        ["auth_ag ext_user none none\n",
          "ext_user_log " ++ s.login ++ " "
            ++ toHex (env.md5 (a2 ++ "-" ++ a3 ++ "/" ++ a4 ++ s.password)) ++ " "
            ++ env.url_encode (if isEmpty s.location || contains s.location "%L"
                then env.resolveLocation s.location else s.location) ++ " "
            ++ env.url_encode (if isEmpty s.comment then env.defaultComment else s.comment)
            ++ "\n"] := by
  obtain ⟨s1, h0, hs1, hsum1, -, hl1, hloc1, hc1, -, -, -⟩ :=
    step0_spec env s a0 a1 a2 a3 a4 a5 rest hpw
  obtain ⟨s2, h1, hs2, -⟩ := step1_spec env args1 s1
  rw [challenge_plain a2 a3 a4 s.password h2 h3 h4] at hsum1
  refine ⟨s1, s2, h0, hsum1, h1, ?_⟩
  rw [hs2, hs1, hsum1, hl1, hloc1, hc1]
  simp

/-- Claim C1, evaluated at the challenge record `markerChallenge`, whose field 2 is `%1`:
with password `pw`, step 0 caches, for every hash function, the hash of `b-c/pw%4`, and
step 1 transmits the hexadecimal rendering of that hash; with the sample hash the cached
digest is not the hash of `%1-b/cpw`, the string the claim names. -/
theorem processHandShaking_marker_field_digest :
    (∀ env : Env, ∃ s1 s2,
      processHandShaking env 0 markerChallenge sampleState = Except.ok s1 ∧
      s1.sum = env.md5 "b-c/pw%4" ∧
      processHandShaking env 1 [] s1 = Except.ok s2 ∧
      sent s2 = ["auth_ag ext_user none none\n",
        "ext_user_log bob " ++ toHex (env.md5 "b-c/pw%4") ++ " " ++ env.url_encode "home"
          ++ " " ++ env.url_encode env.defaultComment ++ "\n"]) ∧
    ∃ s1, processHandShaking sampleEnv 0 markerChallenge sampleState = Except.ok s1 ∧
      s1.sum ≠ sampleEnv.md5 ("%1" ++ "-" ++ "b" ++ "/" ++ "c" ++ "pw") := by
  have harg : arg (arg (arg (arg "%1-%2/%3%4" "%1") "b") "c") "pw" = "b-c/pw%4" := by decide
  constructor
  · intro env
    refine ⟨_, _, rfl, ?_, rfl, ?_⟩
    · show env.md5 ("" ++ arg (arg (arg (arg "%1-%2/%3%4" "%1") "b") "c") "pw") = _
      rw [harg]; rfl
    · simp only [processHandShaking, itemAt, markerChallenge, sampleState]
      simp [Network.sendMessage, emit, sent, harg, isEmpty, contains, occursIn, startsWith,
        String.append_assoc]
  · refine ⟨_, rfl, ?_⟩
    decide

/-- Claim C2, at the empty watch list: steps 0, 1, 2 issue three commands, not four. -/
theorem handshake_empty_watch_list_three_commands :
    sampleState.password ≠ "" ∧ sampleState.loginList = [] ∧
    (processHandShaking sampleEnv 0 plainChallenge sampleState
        >>= processHandShaking sampleEnv 1 [] >>= processHandShaking sampleEnv 2 []).map sent
      = Except.ok ["auth_ag ext_user none none\n",
          "ext_user_log bob 612d622f637077 home dc\n",
          "state actif:1300000000\n"] := by
  decide

/-- Claim C2, amended: with a non-empty password and a challenge record of at least six
fields, steps 0, 1, 2 in that order issue `auth_ag ext_user none none`, the `ext_user_log`
identity line and the `state actif:` line stamped with the clock, followed by the
`user_cmd watch_log_user` line exactly when the watch list is not empty (four commands
then, three for the empty list); afterwards the heartbeat timer runs every ten seconds. -/
theorem handshake_commands_in_order (env : Env) (s : QNetsoul) (a0 a1 a2 a3 a4 a5 : String)
    (rest args1 args2 : List String) (hpw : s.password ≠ "") :
    ∃ s3, (processHandShaking env 0 (a0 :: a1 :: a2 :: a3 :: a4 :: a5 :: rest) s
        >>= processHandShaking env 1 args1 >>= processHandShaking env 2 args2) = Except.ok s3 ∧
      sent s3 = sent s ++
        (["auth_ag ext_user none none\n",
          "ext_user_log " ++ s.login ++ " "
            ++ toHex (env.md5 (arg (arg (arg (arg "%1-%2/%3%4" a2) a3) a4) s.password)) ++ " "
            ++ env.url_encode (if isEmpty s.location || contains s.location "%L"
                then env.resolveLocation s.location else s.location) ++ " "
            ++ env.url_encode (if isEmpty s.comment then env.defaultComment else s.comment)
            ++ "\n",
          "state actif:" ++ toString (env.currentTime % 2 ^ 32) ++ "\n"]
          ++ (if s.loginList = [] then []
              else ["user_cmd watch_log_user \x7b" ++ String.intercalate "," s.loginList
                ++ "\x7d\n"])) ∧
      s3.ping = some 10000 := by
  obtain ⟨s1, h0, hs1, hsum1, -, hl1, hloc1, hc1, hll1, -, -⟩ :=
    step0_spec env s a0 a1 a2 a3 a4 a5 rest hpw
  obtain ⟨s2, h1, hs2, -, hll2, -, -⟩ := step1_spec env args1 s1
  obtain ⟨s3, h2, hs3, hp3⟩ := step2_spec env args2 s2
  refine ⟨s3, ?_, ?_, hp3⟩
  · simp only [bind, Except.bind, h0, h1, h2]
  · rw [hs3, hs2, hs1, hll2, hll1, hsum1, hl1, hloc1, hc1]
    simp

/-- Witness of `handshake_commands_in_order`: three watched logins, four commands. -/
theorem handshake_commands_in_order_witness :
    watchingState.password ≠ "" ∧
    ∃ s3, (processHandShaking sampleEnv 0 ["salut", "42", "a", "b", "c", "1300000000"]
          watchingState
        >>= processHandShaking sampleEnv 1 [] >>= processHandShaking sampleEnv 2 [])
          = Except.ok s3 ∧
      sent s3 = ["auth_ag ext_user none none\n",
        "ext_user_log bob 612d622f637077 home dc\n",
        "state actif:1300000000\n",
        "user_cmd watch_log_user \x7balice,carol,dave\x7d\n"] ∧
      s3.ping = some 10000 :=
  ⟨by decide,
    handshake_commands_in_order sampleEnv watchingState "salut" "42" "a" "b" "c" "1300000000"
      [] [] [] (by decide)⟩

/-- Claim C3, at a concrete session: the digest cached by step 0 is still cached after
`disconnect`, and a step-1 record handled after the disconnect transmits it. -/
theorem disconnect_keeps_digest_example :
    (processHandShaking sampleEnv 0 plainChallenge sampleState).map (fun s => (disconnect s).sum)
        = Except.ok "a-b/cpw" ∧
    (processHandShaking sampleEnv 0 plainChallenge sampleState
        >>= fun s => processHandShaking sampleEnv 1 [] (disconnect s)).map sent
      = Except.ok ["auth_ag ext_user none none\n",
          "ext_user_log bob 612d622f637077 home dc\n"] := by
  decide

/-- Claim C3, amended: `disconnect` leaves the cached digest as it was, and a step-1 record
handled right after the disconnect transmits the hexadecimal rendering of the digest that
was cached before it. -/
theorem disconnect_keeps_digest (env : Env) (args : List String) (s : QNetsoul) :
    (disconnect s).sum = s.sum ∧
    ∃ s1, processHandShaking env 1 args (disconnect s) = Except.ok s1 ∧
      sent s1 = sent s ++
        ["ext_user_log " ++ s.login ++ " " ++ toHex s.sum ++ " "
          ++ env.url_encode (if isEmpty s.location || contains s.location "%L"
              then env.resolveLocation s.location else s.location) ++ " "
          ++ env.url_encode (if isEmpty s.comment then env.defaultComment else s.comment)
          ++ "\n"] := by
  obtain ⟨hsum, hlogin, hloc, hcom, -, -, hsent, -⟩ := disconnect_frame s
  obtain ⟨s1, h1, hs1, -⟩ := step1_spec env args (disconnect s)
  refine ⟨hsum, s1, h1, ?_⟩
  rw [hs1, hsent, hsum, hlogin, hloc, hcom]

/-- Claim C4: from every state, whether the heartbeat runs or not and whatever the
registry holds, step -1 returns, leaves the transport unconnected and the heartbeat timer
stopped, and hands no message to the network. -/
theorem authFailed_disconnects_silently (env : Env) (args : List String) (s : QNetsoul) :
    ∃ s1, processHandShaking env (-1) args s = Except.ok s1 ∧
      s1.socket = SocketState.UnconnectedState ∧ s1.ping = none ∧ sent s1 = sent s := by
  obtain ⟨-, -, -, -, hping, hsock, hsent, -⟩ := disconnect_frame s
  refine ⟨_, stepFailed_eq env args s, ?_, ?_, ?_⟩
  · rw [(emit_frame _ _).2.2.2.2.2.2.1, hsock]
  · rw [(emit_frame _ _).2.2.2.2.2.1, hping]
  · rw [sent_emit, hsent]; simp

/-- Claim C9, at a concrete session without password: step 0 records no call on any
collaborator, so no credentials-missing event is surfaced. -/
theorem step0_empty_password_no_event :
    noPasswordState.password = "" ∧ noPasswordState.trace = [] ∧
    (processHandShaking sampleEnv 0 plainChallenge noPasswordState).map (fun s => s.trace)
      = Except.ok [] := by
  decide

/-- Claim C9, amended: while the configured password is empty, step 0 returns the state it
was given: no outbound command, the cached digest unchanged, and no call on any
collaborator, hence no event. -/
theorem step0_empty_password_unchanged (env : Env) (args : List String) (s : QNetsoul)
    (hpw : s.password = "") :
    processHandShaking env 0 args s = Except.ok s := by
  have h : isEmpty s.password = true := (isEmpty_eq_true_iff _).mpr hpw
  simp [processHandShaking, h, pure, Except.pure]

/-- Witness of `step0_empty_password_unchanged`. -/
theorem step0_empty_password_unchanged_witness :
    noPasswordState.password = "" ∧
    processHandShaking sampleEnv 0 plainChallenge noPasswordState = Except.ok noPasswordState :=
  ⟨rfl, step0_empty_password_unchanged sampleEnv plainChallenge noPasswordState rfl⟩

/-- Claim C10: for a non-empty list of logins `watchLogContacts` sends exactly one message,
`user_cmd watch_log_user {` followed by the logins joined by `,` in list order and by `}`
and a line feed; for the empty list it sends nothing. -/
theorem watchLogContacts_message (s : QNetsoul) :
    (s.loginList ≠ [] →
      sent (watchLogContacts s) = sent s ++
        ["user_cmd watch_log_user \x7b" ++ String.intercalate "," s.loginList ++ "\x7d\n"]) ∧
    (s.loginList = [] → sent (watchLogContacts s) = sent s) := by
  constructor
  · intro h; rw [sent_watchLogContacts, if_neg h]
  · intro h; rw [sent_watchLogContacts, if_pos h]; simp

/-- Witness of `watchLogContacts_message`, for three logins. -/
theorem watchLogContacts_message_witness :
    watchingState.loginList ≠ [] ∧
    sent (watchLogContacts watchingState)
      = ["user_cmd watch_log_user \x7balice,carol,dave\x7d\n"] :=
  ⟨by decide, (watchLogContacts_message watchingState).1 (by decide)⟩

/-! ## Claims on disconnection and connection -/

/-- Claim C5: after `disconnect` the heartbeat timer is stopped, every entry of
`_windowsChat` shows the offline pixmap, and the ids in the registry are the same, in every
state (in particular in those where the heartbeat was running). -/
theorem disconnect_stops_ping_marks_offline (s : QNetsoul) :
    (disconnect s).ping = none ∧
    (∀ e ∈ (disconnect s).windowsChat, e.2.pixmap = ":/images/offline") ∧
    (disconnect s).windowsChat.map Prod.fst = s.windowsChat.map Prod.fst := by
  obtain ⟨-, -, -, -, hping, -, -, hreg⟩ := disconnect_frame s
  refine ⟨hping, ?_, ?_⟩
  · intro e he
    rw [hreg] at he
    obtain ⟨e0, -, rfl⟩ := List.mem_map.mp he
    rfl
  · rw [hreg]; simp [List.map_map, Function.comp_def]

/-- Claim C8: `connectToServer` requests a connection exactly when the socket is not
connected, the login and the password are not empty and the port text parses as an
unsigned 16-bit number, and then to the configured server and the parsed port without
warning; when the socket is not connected and a check fails, no connection is requested
and the one warning shown is that of the first failing check in the order login, password,
port. -/
theorem connectToServer_requests_iff (s : QNetsoul) :
    ((∃ port, connects (connectToServer s) = connects s ++ [(s.server, port)]) ↔
        (s.socket ≠ SocketState.ConnectedState ∧ s.login ≠ "" ∧ s.password ≠ "" ∧
          (toUShort s.port).isSome = true)) ∧
    (∀ port, s.socket ≠ SocketState.ConnectedState → s.login ≠ "" → s.password ≠ "" →
      toUShort s.port = some port →
        connects (connectToServer s) = connects s ++ [(s.server, port)] ∧
        warnings (connectToServer s) = warnings s) ∧
    (s.socket ≠ SocketState.ConnectedState → s.login = "" →
      connects (connectToServer s) = connects s ∧
      warnings (connectToServer s) = warnings s ++ ["Your login is missing."]) ∧
    (s.socket ≠ SocketState.ConnectedState → s.login ≠ "" → s.password = "" →
      connects (connectToServer s) = connects s ∧
      warnings (connectToServer s) = warnings s ++ ["Your password is missing."]) ∧
    (s.socket ≠ SocketState.ConnectedState → s.login ≠ "" → s.password ≠ "" →
      toUShort s.port = none →
      connects (connectToServer s) = connects s ∧
      warnings (connectToServer s) = warnings s ++ ["Port is invalid."]) := by
  by_cases hc : s.socket = SocketState.ConnectedState
  · simp [connectToServer, hc]
  by_cases hl : s.login = ""
  · have hl2 : isEmpty s.login = true := (isEmpty_eq_true_iff _).mpr hl
    have hcs : connectToServer s
        = openOptionsDialog "loginLineEdit" (emit (Effect.warning "Your login is missing.") s) := by
      simp [connectToServer, hc, hl2]
    rw [hcs]
    simp [hc, hl, openOptionsDialog, connects_emit, warnings_emit]
  have hl2 : isEmpty s.login = false := (isEmpty_eq_false_iff _).mpr hl
  by_cases hp : s.password = ""
  · have hp2 : isEmpty s.password = true := (isEmpty_eq_true_iff _).mpr hp
    have hcs : connectToServer s
        = openOptionsDialog "passwordLineEdit"
            (emit (Effect.warning "Your password is missing.") s) := by
      simp [connectToServer, hc, hl2, hp2]
    rw [hcs]
    simp [hc, hl, hp, openOptionsDialog, connects_emit, warnings_emit]
  have hp2 : isEmpty s.password = false := (isEmpty_eq_false_iff _).mpr hp
  cases hport : toUShort s.port with
  | none =>
    have hcs : connectToServer s
        = openOptionsDialog "portLineEdit" (emit (Effect.warning "Port is invalid.") s) := by
      simp [connectToServer, hc, hl2, hp2, hport]
    rw [hcs]
    simp [hc, hl, hp, openOptionsDialog, connects_emit, warnings_emit]
  | some port =>
    have hcs : connectToServer s
        = Network.connect s.server port (emit (Effect.statusbar "Connecting..." 3000) s) := by
      simp [connectToServer, hc, hl2, hp2, hport]
    rw [hcs]
    simp [hc, hl, hp, Network.connect, connects_emit, warnings_emit]

/-- Witness of `connectToServer_requests_iff`: an unconnected socket, login and password
filled in, and a port text that is not a number. -/
theorem connectToServer_requests_iff_witness :
    badPortState.socket ≠ SocketState.ConnectedState ∧ badPortState.login ≠ "" ∧
    badPortState.password ≠ "" ∧ toUShort badPortState.port = none ∧
    connects (connectToServer badPortState) = [] ∧
    warnings (connectToServer badPortState) = ["Port is invalid."] :=
  ⟨by decide, by decide, by decide, by decide,
    (connectToServer_requests_iff badPortState).2.2.2.2
      (by decide) (by decide) (by decide) (by decide)⟩

/-! ## Claims on presence records -/

/-- Claim C6, at a logout record for the unknown id 7: after `changeStatus` the registry
has no entry under 7. -/
theorem changeStatus_logout_unknown_id_absent :
    toInt "7" = some 7 ∧ getChat 7 sampleState = none ∧
    (changeStatus logoutRecord sampleState).map (fun s => getChat 7 s) = Except.ok none := by
  decide

/-- Claim C6, amended: for a presence-update record of at least six fields whose id field
parses as an integer that is not a key of the registry, `changeStatus` returns; when the
state field is not `logout` the registry then holds an entry under that id carrying the
login and the location of the record; when the state field is `logout` the entry created by
the call is removed by the same call and the id is not a key afterwards. -/
theorem changeStatus_unknown_id (s : QNetsoul) (p0 p1 p2 p3 p4 p5 : String)
    (rest : List String) (id : Int)
    (hid : toInt p1 = some id) (hnew : getChat id s = none) :
    ∃ s1, changeStatus (p0 :: p1 :: p2 :: p3 :: p4 :: p5 :: rest) s = Except.ok s1 ∧
      (p4 ≠ "logout" →
        ∃ chat, getChat id s1 = some chat ∧ chat.login = p0 ∧ chat.location = p5) ∧
      (p4 = "logout" → getChat id s1 = none) := by
  simp only [changeStatus, itemAt, List.get?, bind, Except.bind, hid, hnew, pure, Except.pure,
    createWindowChat]
  cases hf : states.find? (fun st => decide (p4 = st.state)) with
  | none =>
    refine ⟨_, rfl, ?_, ?_⟩
    · intro _
      refine ⟨Chat.new id p0 p5, ?_, rfl, rfl⟩
      simp [getChat, emit, lookup_hashInsert_self]
    · intro h
      subst h
      simp [states] at hf
  | some st =>
    obtain ⟨s1, h1, hreg⟩ := applyStatus_registry
      { s with windowsChat := hashInsert id (Chat.new id p0 p5) s.windowsChat }
      p0 p1 p2 p3 p4 p5 rest id (Chat.new id p0 p5) st
    simp only [h1]
    refine ⟨_, rfl, ?_, ?_⟩
    · intro hne
      rw [if_neg hne] at hreg
      refine ⟨{ Chat.new id p0 p5 with pixmap := st.pixmap }, ?_, rfl, rfl⟩
      simp [getChat, emit, hreg, lookup_setPixmap_self, lookup_hashInsert_self]
    · intro heq
      rw [if_pos heq] at hreg
      simp only [getChat, emit, hreg]
      exact lookup_hashRemove_self id _

/-- Witness of `changeStatus_unknown_id`: an `actif` record for the unknown id 7. -/
theorem changeStatus_unknown_id_witness :
    toInt "7" = some 7 ∧ getChat 7 sampleState = none ∧
    ∃ s1, changeStatus ["alice", "7", "10.0.0.1", "epita_2012", "actif", "lab", "-"] sampleState
        = Except.ok s1 ∧
      ("actif" ≠ "logout" →
        ∃ chat, getChat 7 s1 = some chat ∧ chat.login = "alice" ∧ chat.location = "lab") ∧
      ("actif" = "logout" → getChat 7 s1 = none) :=
  ⟨by decide, by decide,
    changeStatus_unknown_id sampleState "alice" "7" "10.0.0.1" "epita_2012" "actif" "lab"
      ["-"] 7 (by decide) (by decide)⟩

/-- Claim C7: for two who-records of at least six fields whose id fields parse to the same
id, the second with a state of the recognised set, `updateContact` on the first and then on
the second returns and leaves exactly one registry entry under that id, whose pixmap is the
one the table `states` gives for the state of the second record.  The registry is assumed
to hold one item per key, as a hash does; the state of the first record is arbitrary. -/
theorem updateContact_twice_one_entry (s : QNetsoul) (id : Int)
    (p0 p1 p2 p3 p4 p5 q0 q1 q2 q3 q4 q5 : String)
    (prest qrest : List String) (hok : registryOk s)
    (hp : toInt p1 = some id) (hq : toInt q1 = some id)
    (hq4 : q4 ∈ ["login", "logout", "actif", "away", "idle", "lock", "server"]) :
    ∃ s2, (updateContact (p0 :: p1 :: p2 :: p3 :: p4 :: p5 :: prest) s
        >>= updateContact (q0 :: q1 :: q2 :: q3 :: q4 :: q5 :: qrest)) = Except.ok s2 ∧
      (s2.windowsChat.map Prod.fst).count id = 1 ∧
      ∃ chat st, getChat id s2 = some chat ∧ st ∈ states ∧ st.state = q4 ∧
        chat.pixmap = st.pixmap := by
  obtain ⟨s1, h1, hreg1⟩ := updateContact_spec s p0 p1 p2 p3 p4 p5 prest id hp
  obtain ⟨s2, h2, hreg2⟩ := updateContact_spec s1 q0 q1 q2 q3 q4 q5 qrest id hq
  obtain ⟨st, hst, hmem, hname⟩ := stateRow_recognised q4 hq4
  have hcount1 : (s1.windowsChat.map Prod.fst).count id = 1 ∧ (getChat id s1).isSome := by
    rw [getChat, hreg1, keys_setRowPixmap, lookup_isSome_setRowPixmap]
    cases hg : getChat id s with
    | none => exact ⟨count_keys_hashInsert _ _ _, by rw [lookup_hashInsert_self]; rfl⟩
    | some c =>
      refine ⟨List.count_eq_one_of_mem hok (mem_keys_of_lookup id c _ hg), ?_⟩
      show (s.windowsChat.lookup id).isSome = true
      rw [show s.windowsChat.lookup id = some c from hg]; rfl
  obtain ⟨c1, hc1⟩ := Option.isSome_iff_exists.mp hcount1.2
  rw [hc1] at hreg2
  refine ⟨s2, by simp only [bind, Except.bind, h1, h2], ?_, ?_⟩
  · rw [hreg2, keys_setRowPixmap]; exact hcount1.1
  · refine ⟨{ c1 with pixmap := st.pixmap }, st, ?_, hmem, hname, rfl⟩
    rw [getChat, hreg2, hst, lookup_setRowPixmap, show s1.windowsChat.lookup id = some c1 from hc1]
    rfl

/-- Witness of `updateContact_twice_one_entry`: id 7, first `actif`, then `lock`. -/
theorem updateContact_twice_one_entry_witness :
    registryOk sampleState ∧ toInt "7" = some 7 ∧ toInt " 7" = some 7 ∧
    "lock" ∈ ["login", "logout", "actif", "away", "idle", "lock", "server"] ∧
    ∃ s2, (updateContact ["alice", "7", "10.0.0.1", "epita_2012", "actif", "lab", "-"] sampleState
        >>= updateContact ["alice", " 7", "10.0.0.1", "epita_2012", "lock", "lab", "-"])
          = Except.ok s2 ∧
      (s2.windowsChat.map Prod.fst).count 7 = 1 ∧
      ∃ chat st, getChat 7 s2 = some chat ∧ st ∈ states ∧ st.state = "lock" ∧
        chat.pixmap = st.pixmap :=
  ⟨by decide, by decide, by decide, by decide,
    updateContact_twice_one_entry sampleState 7 "alice" "7" "10.0.0.1" "epita_2012" "actif" "lab"
      "alice" " 7" "10.0.0.1" "epita_2012" "lock" "lab" ["-"] ["-"]
      (by decide) (by decide) (by decide) (by decide)⟩

/-! ## Claims on the bounds of the challenge record -/

/-- Step 0 on a record of four or five fields, with a password: the guard passes and the
read of field 5 is out of range. -/
theorem step0_short_record_faults (env : Env) (args : List String) (s : QNetsoul)
    (hpw : s.password ≠ "") (h3 : 3 < args.length) (h6 : args.length < 6) :
    processHandShaking env 0 args s = Except.error Fault.indexOutOfRange := by
  have hpw2 : isEmpty s.password = false := (isEmpty_eq_false_iff _).mpr hpw
  have h5 : args.get? 5 = none := List.get?_eq_none.mpr (by omega)
  simp only [processHandShaking, itemAt, hpw2, h5]
  simp [bind, Except.bind, h3]

/-- Claim C13, evaluated at the four-field record `shortChallenge` with password `pw`: the
record passes the guard of step 0 (non-empty password, more than 3 fields), indices 4 and 5
are not within its bounds, and for every environment the handler ends in the out-of-range
fault of `QStringList::at`. -/
theorem processHandShaking_short_record_out_of_range :
    sampleState.password ≠ "" ∧ shortChallenge.length > 3 ∧
    ¬ (4 < shortChallenge.length) ∧ ¬ (5 < shortChallenge.length) ∧
    ∀ env : Env,
      processHandShaking env 0 shortChallenge sampleState
        = Except.error Fault.indexOutOfRange := by
  refine ⟨by decide, by decide, by decide, by decide, fun env => ?_⟩
  exact step0_short_record_faults env shortChallenge sampleState (by decide) (by decide)
    (by decide)

/-! ## Claims on the identity line -/

/-- Claim C11, at the location placeholder `%L` and a resolver that leaves `lab-sm14` in
the location variable: the one message step 1 sends carries the encoded `lab-sm14`, not the
encoded configured location. -/
theorem step1_resolved_location_example :
    (processHandShaking resolvingEnv 1 [] placeholderState).map sent
        = Except.ok ["ext_user_log bob 01ab lab-sm14 at work\n"] ∧
    "ext_user_log bob 01ab lab-sm14 at work\n"
      ≠ "ext_user_log " ++ placeholderState.login ++ " " ++ toHex placeholderState.sum ++ " "
          ++ resolvingEnv.url_encode placeholderState.location ++ " "
          ++ resolvingEnv.url_encode placeholderState.comment ++ "\n" := by
  decide

/-- Claim C11, amended: for every login, cached digest, location and comment, step 1
returns and sends exactly one message, `ext_user_log`, the login, the lowercase hexadecimal
digest, the encoded location and the encoded comment, separated by single spaces and closed
by one line feed.  The encoded location is the configured one when it is not empty and
holds no `%L`, and otherwise the text `Network::resolveLocation` leaves in the location
variable; an empty comment is replaced by the default comment. -/
theorem step1_identity_line_resolved (env : Env) (args : List String) (s : QNetsoul) :
    ∃ s1 msg, processHandShaking env 1 args s = Except.ok s1 ∧
      sent s1 = sent s ++ [msg] ∧
      msg = "ext_user_log " ++ s.login ++ " " ++ toHex s.sum ++ " "
          ++ env.url_encode (if isEmpty s.location || contains s.location "%L"
              then env.resolveLocation s.location else s.location) ++ " "
          ++ env.url_encode (if s.comment = "" then env.defaultComment else s.comment)
          ++ "\n" ∧
      msg.data.getLast? = some '\n' := by
  obtain ⟨s1, h1, hs1, -⟩ := step1_spec env args s
  have hcom : (if isEmpty s.comment then env.defaultComment else s.comment)
      = (if s.comment = "" then env.defaultComment else s.comment) := by
    by_cases hc : s.comment = ""
    · rw [if_pos hc, if_pos ((isEmpty_eq_true_iff _).mpr hc)]
    · have hc2 : isEmpty s.comment = false := (isEmpty_eq_false_iff _).mpr hc
      rw [if_neg hc]; simp [hc2]
  rw [hcom] at hs1
  refine ⟨s1, _, h1, hs1, rfl, ?_⟩
  rw [String.data_append]
  exact List.getLast?_concat _

/-! ## Claims on the removal of a login -/

theorem disableChat_registry (chat : Chat) (s : QNetsoul) :
    (disableChat chat s).windowsChat = hashRemove chat.id s.windowsChat := by
  simp only [disableChat]
  split <;> simp [emit]

/-- Registry after the loop of `disableChats` over the snapshot `l`: an entry stays when
no chat of the login in the snapshot has its key as id. -/
theorem disableChats_fold (login : String) (l : List (Int × Chat)) :
    ∀ acc : QNetsoul,
      (l.foldl (fun acc e => if login = e.2.login then disableChat e.2 acc else acc)
          acc).windowsChat
        = acc.windowsChat.filter
            (fun k => l.all (fun e => !(decide (login = e.2.login) && decide (k.1 = e.2.id)))) := by
  induction l with
  | nil => intro acc; simp
  | cons e l ih =>
    intro acc
    rw [List.foldl_cons, ih]
    by_cases h : login = e.2.login
    · rw [if_pos h, disableChat_registry, hashRemove, List.filter_filter]
      congr 1
      funext k
      by_cases hk : k.1 = e.2.id
      · simp [h, hk]
      · simp [h, hk]
    · rw [if_neg h]
      congr 1
      funext k
      simp [h]

theorem disableChats_registry (login : String) (s : QNetsoul)
    (hok : registryOk s) (hid : keyedById s) :
    (disableChats login s).windowsChat
      = s.windowsChat.filter (fun e => decide (e.2.login ≠ login)) := by
  rw [disableChats, disableChats_fold]
  apply List.filter_congr
  intro k hk
  by_cases hkl : k.2.login = login
  · have : (s.windowsChat.all
        (fun e => !(decide (login = e.2.login) && decide (k.1 = e.2.id)))) = false := by
      rw [List.all_eq_false]
      exact ⟨k, hk, by simp [hkl, hid k hk]⟩
    rw [this]; simp [hkl]
  · have : (s.windowsChat.all
        (fun e => !(decide (login = e.2.login) && decide (k.1 = e.2.id)))) = true := by
      rw [List.all_eq_true]
      intro e he
      by_cases hel : login = e.2.login
      · have hne : k.1 ≠ e.2.id := by
          intro hkey
          have hkey2 : k.1 = e.1 := by rw [hkey, ← hid e he]
          have := List.inj_on_of_nodup_map hok hk he hkey2
          exact hkl (by rw [this, ← hel])
        simp [hne]
      · simp [hel]
    rw [this]; simp [hkl]

theorem lookup_of_mem_nodup (l : List (Int × Chat)) (k : Int) (v : Chat)
    (hnd : (l.map Prod.fst).Nodup) (hm : (k, v) ∈ l) : l.lookup k = some v := by
  induction l with
  | nil => simp at hm
  | cons e l ih =>
    obtain ⟨k0, v0⟩ := e
    rw [List.map_cons, List.nodup_cons] at hnd
    rcases List.mem_cons.mp hm with h | h
    · cases h
      simp [List.lookup]
    · have hne : (k == k0) = false := by
        have : k ≠ k0 := by
          intro hk
          exact hnd.1 (by rw [← hk]; exact List.mem_map.mpr ⟨(k, v), h, rfl⟩)
        simpa using this
      simp only [List.lookup, hne]
      exact ih hnd.2 h

/-- The two invariants of the registry hold for the empty registry and are kept by
`createWindowChat`. -/
theorem createWindowChat_keeps_invariants (id : Int) (login location : String) (s : QNetsoul)
    (hok : registryOk s) (hid : keyedById s) :
    registryOk (createWindowChat id login location s).2 ∧
    keyedById (createWindowChat id login location s).2 := by
  constructor
  · simp only [registryOk, createWindowChat, hashInsert, List.map_cons, List.nodup_cons]
    constructor
    · intro hmem
      obtain ⟨e, he, hk⟩ := List.mem_map.mp hmem
      have := (List.mem_filter.mp he).2
      simp [hk] at this
    · exact (List.Nodup.sublist ((List.filter_sublist _).map Prod.fst) hok)
  · intro e he
    simp only [createWindowChat, hashInsert, List.mem_cons] at he
    rcases he with h | h
    · rw [h]; rfl
    · exact hid e (List.mem_filter.mp h).1

/-- Claim C12: after `disableChats(login)` the registry holds no entry whose chat has that
login, and every entry whose chat has another login is still stored under the same id,
unchanged.  The registry is one the main window builds: one item per key, every chat
stored under its own id. -/
theorem disableChats_removes_login (login : String) (s : QNetsoul)
    (hok : registryOk s) (hid : keyedById s) :
    (∀ e ∈ (disableChats login s).windowsChat, e.2.login ≠ login) ∧
    (∀ e ∈ s.windowsChat, e.2.login ≠ login →
      e ∈ (disableChats login s).windowsChat ∧
      getChat e.1 (disableChats login s) = some e.2) := by
  have hreg := disableChats_registry login s hok hid
  constructor
  · intro e he
    rw [hreg] at he
    simpa using (List.mem_filter.mp he).2
  · intro e he hne
    have hmem : e ∈ (disableChats login s).windowsChat := by
      rw [hreg]
      exact List.mem_filter.mpr ⟨he, by simpa using hne⟩
    refine ⟨hmem, ?_⟩
    have hnd : ((disableChats login s).windowsChat.map Prod.fst).Nodup := by
      rw [hreg]
      exact List.Nodup.sublist ((List.filter_sublist _).map Prod.fst) hok
    exact lookup_of_mem_nodup _ e.1 e.2 hnd hmem

/-- Witness of `disableChats_removes_login`: three chats, two of them of login `alice`. -/
theorem disableChats_removes_login_witness :
    registryOk chattingState ∧ keyedById chattingState ∧
    (∀ e ∈ (disableChats "alice" chattingState).windowsChat, e.2.login ≠ "alice") ∧
    (∀ e ∈ chattingState.windowsChat, e.2.login ≠ "alice" →
      e ∈ (disableChats "alice" chattingState).windowsChat ∧
      getChat e.1 (disableChats "alice" chattingState) = some e.2) :=
  ⟨by decide, by decide,
    disableChats_removes_login "alice" chattingState (by decide) (by decide)⟩

end QNetSoul
